import Mathlib

/-!
Verification of the Mina web wallet repository: a shallow embedding of the
core wallet type (`src/core/src/wallet.rs`), the library helpers
(`src/core/src/lib.rs`), the CLI command dispatch (`src/cli/src/main.rs`)
and the wasm boundary functions (`src/wasm-module/src/lib.rs`), together
with proofs of the specification's testable properties.

The cryptographic signing library (`mina_signer`) is not part of this
repository; following the specification it is treated as an external
collaborator reached through a small capability interface (`KeyCodec`)
whose documented success/failure contracts are captured by
`KeyCodec.Lawful`.
-/

namespace MinaWallet

/-- Network tag, mirroring `mina_signer::NetworkId` (an enum with the two
variants `TESTNET` and `MAINNET`). -/
inductive NetworkId where
  | TESTNET : NetworkId
  | MAINNET : NetworkId
deriving DecidableEq

/-- The string produced by Rust's derived `Debug` formatting of
`NetworkId`, used by the CLI (`{:?}` in `print_wallet_text` and
`print_wallet_json`). -/
def NetworkId.debugStr : NetworkId → String
  | .TESTNET => "TESTNET"
  | .MAINNET => "MAINNET"

/-- Modelled from the spec: the external Key Codec capability interface
(spec section 2 and section 9) supplied by the signing library, which is not
part of this repository. `from_hex`/`to_hex` and `from_base58`/`to_base58`
encode and decode a secret key; `derive_public` is the fallible public-key
derivation inside `Keypair::from_secret_key`; `compress` and `into_address`
model `PubKey::into_address` (which encodes the compressed form of a public
key); `from_address` models `CompressedPubKey::from_address`. Failures carry
a human-readable detail string. -/
structure KeyCodec (SK PK CPK : Type) where
  from_hex : String → Except String SK
  to_hex : SK → String
  from_base58 : String → Except String SK
  to_base58 : SK → String
  derive_public : SK → Except String PK
  compress : PK → CPK
  into_address : CPK → String
  from_address : String → Except String CPK

/-- A keypair, mirroring `mina_signer::Keypair`: a secret key together with
the public key derived from it. -/
structure Keypair (SK PK : Type) where
  secret : SK
  public : PK
deriving DecidableEq

/-- Boolean success test for `Except` values. -/
def exceptOk {ε α : Type} : Except ε α → Bool
  | .ok _ => true
  | .error _ => false

/-- Errors that can occur during wallet operations (`WalletError` in
`src/core/src/wallet.rs`), each carrying a detail string. -/
inductive WalletError where
  | InvalidSecretKey : String → WalletError
  | InvalidAddress : String → WalletError
  | SigningFailed : String → WalletError
  | KeypairGenerationFailed : String → WalletError
deriving DecidableEq

/-- The `Display` rendering of a `WalletError` produced by the `thiserror`
attributes in `src/core/src/wallet.rs`. -/
def WalletError.message : WalletError → String
  | .InvalidSecretKey d => "Invalid secret key: " ++ d
  | .InvalidAddress d => "Invalid address: " ++ d
  | .SigningFailed d => "Signing failed: " ++ d
  | .KeypairGenerationFailed d => "Keypair generation failed: " ++ d

/-- A Mina wallet: a keypair plus the network tag
(`Wallet` in `src/core/src/wallet.rs`). -/
structure Wallet (SK PK : Type) where
  keypair : Keypair SK PK
  network : NetworkId
deriving DecidableEq

section WalletOps

variable {SK PK CPK : Type}

/-- `Wallet::new`: wraps a freshly generated random keypair. The entropy
draw `Keypair::rand(&mut OsRng)` is modelled by passing its outcome
explicitly; a failure is mapped to `KeypairGenerationFailed`. -/
def Wallet.new (entropy : Except String (Keypair SK PK)) (network : NetworkId) :
    Except WalletError (Wallet SK PK) :=
  match entropy with
  | .error e => .error (.KeypairGenerationFailed e)
  | .ok kp => .ok { keypair := kp, network := network }

/-- `Wallet::from_secret_key_hex`: decode the hex text into a secret key,
derive the public key (`Keypair::from_secret_key`), and wrap the pair with
the network tag; each failure becomes `InvalidSecretKey`. -/
def Wallet.from_secret_key_hex (codec : KeyCodec SK PK CPK)
    (secret_hex : String) (network : NetworkId) :
    Except WalletError (Wallet SK PK) :=
  match codec.from_hex secret_hex with
  | .error e => .error (.InvalidSecretKey e)
  | .ok secret =>
    match codec.derive_public secret with
    | .error e => .error (.InvalidSecretKey e)
    | .ok pub => .ok { keypair := { secret := secret, public := pub }, network := network }

/-- `Wallet::from_secret_key_base58`: same as the hex constructor with the
Base58 decoder. -/
def Wallet.from_secret_key_base58 (codec : KeyCodec SK PK CPK)
    (secret_b58 : String) (network : NetworkId) :
    Except WalletError (Wallet SK PK) :=
  match codec.from_base58 secret_b58 with
  | .error e => .error (.InvalidSecretKey e)
  | .ok secret =>
    match codec.derive_public secret with
    | .error e => .error (.InvalidSecretKey e)
    | .ok pub => .ok { keypair := { secret := secret, public := pub }, network := network }

/-- `Wallet::address`: `self.keypair.public.into_address()`, which encodes
the compressed public key. -/
def Wallet.address (codec : KeyCodec SK PK CPK) (w : Wallet SK PK) : String :=
  codec.into_address (codec.compress w.keypair.public)

/-- `Wallet::secret_key_hex`: `self.keypair.secret.to_hex()`. -/
def Wallet.secret_key_hex (codec : KeyCodec SK PK CPK) (w : Wallet SK PK) : String :=
  codec.to_hex w.keypair.secret

/-- `Wallet::secret_key_base58`: `self.keypair.secret.to_base58()`. -/
def Wallet.secret_key_base58 (codec : KeyCodec SK PK CPK) (w : Wallet SK PK) : String :=
  codec.to_base58 w.keypair.secret

/-- Spec section 3 invariant: a Wallet's public key is the one derived from
its secret key. Every Wallet constructed by `new`,
`from_secret_key_hex` or `from_secret_key_base58` satisfies this. -/
def Wallet.WellFormed (codec : KeyCodec SK PK CPK) (w : Wallet SK PK) : Prop :=
  codec.derive_public w.keypair.secret = .ok w.keypair.public

/-- `pubkey_to_address` in `src/core/src/lib.rs`: `pubkey.into_address()`. -/
def pubkey_to_address (codec : KeyCodec SK PK CPK) (pubkey : PK) : String :=
  codec.into_address (codec.compress pubkey)

/-- `address_to_pubkey` in `src/core/src/lib.rs`:
`CompressedPubKey::from_address(address)`. -/
def address_to_pubkey (codec : KeyCodec SK PK CPK) (address : String) :
    Except String CPK :=
  codec.from_address address

/-- The `Debug` rendering of a `Wallet` (`impl Debug for Wallet` in
`src/core/src/wallet.rs`): a debug struct showing only the address and the
network, deliberately omitting the secret key. -/
def Wallet.debugRender (codec : KeyCodec SK PK CPK) (w : Wallet SK PK) : String :=
  "Wallet \x7b address: \"" ++ Wallet.address codec w ++ "\", network: "
    ++ w.network.debugStr ++ " \x7d"

/-- The `Display` rendering of a `Wallet` (`impl Display for Wallet`):
just the address. -/
def Wallet.displayRender (codec : KeyCodec SK PK CPK) (w : Wallet SK PK) : String :=
  Wallet.address codec w

end WalletOps

/-- Modelled from the spec: the documented success/failure contracts of the
external Key Codec (spec sections 2, 4.1 and 8): the two secret-key text
encodings round-trip; address encoding and parsing are two-sided inverses;
and no string is simultaneously valid hex and valid Base58 (format
rejection independence). -/
structure KeyCodec.Lawful {SK PK CPK : Type} (codec : KeyCodec SK PK CPK) : Prop where
  hex_roundtrip : ∀ sk : SK, codec.from_hex (codec.to_hex sk) = .ok sk
  base58_roundtrip : ∀ sk : SK, codec.from_base58 (codec.to_base58 sk) = .ok sk
  address_parse_encode : ∀ (s : String) (cpk : CPK),
    codec.from_address s = .ok cpk → codec.into_address cpk = s
  address_encode_parse : ∀ cpk : CPK,
    codec.from_address (codec.into_address cpk) = .ok cpk
  format_disjoint_hex : ∀ s : String,
    exceptOk (codec.from_hex s) = true → exceptOk (codec.from_base58 s) = false
  format_disjoint_base58 : ∀ s : String,
    exceptOk (codec.from_base58 s) = true → exceptOk (codec.from_hex s) = false

/-- The JSON object printed by `print_wallet_json` in `src/cli/src/main.rs`:
fields `address`, `secret_key_hex`, `secret_key_base58` and `network`
(the network being the lower-cased `Debug` rendering of the tag). -/
structure WalletJson where
  address : String
  secret_key_hex : String
  secret_key_base58 : String
  network : String
deriving DecidableEq

/-- What a CLI command writes to standard output: the multi-line text
report, the JSON wallet object, or a single plain line. -/
inductive CliOut where
  | text : List String → CliOut
  | json : WalletJson → CliOut
  | line : String → CliOut
deriving DecidableEq

/-- Outcome of one CLI command: the process exit code, what was printed to
standard output (if anything), and what was printed to the error stream
(if anything). -/
structure CliResult where
  exitCode : Nat
  output : Option CliOut
  errMsg : Option String
deriving DecidableEq

section CliOps

variable {SK PK CPK : Type}

/-- Rust's `str::to_lowercase` as used by the CLI and wasm layers:
character-wise lower-casing (all the strings involved are ASCII). -/
def strToLower (s : String) : String :=
  String.mk (s.data.map Char.toLower)

/-- `parse_network` in `src/cli/src/main.rs`: lower-case the option value
and match it against the two recognised names. -/
def parse_network (network : String) : Except String NetworkId :=
  if strToLower network = "mainnet" then .ok .MAINNET
  else if strToLower network = "testnet" then .ok .TESTNET
  else .error ("Invalid network \x27" ++ network ++ "\x27. Use \x27mainnet\x27 or \x27testnet\x27.")

/-- `import_wallet` in `src/cli/src/main.rs`: try the hex constructor
first, then the Base58 constructor; if both fail, return the combined
invalid-format message. -/
def import_wallet (codec : KeyCodec SK PK CPK) (secret_key : String)
    (network : NetworkId) : Except String (Wallet SK PK) :=
  match Wallet.from_secret_key_hex codec secret_key network with
  | .ok wallet => .ok wallet
  | .error _ =>
    match Wallet.from_secret_key_base58 codec secret_key network with
    | .ok wallet => .ok wallet
    | .error _ =>
      .error "Invalid secret key format. Expected hex (64 chars) or base58 (52 chars)."

/-- `print_wallet_text` in `src/cli/src/main.rs`: the human-oriented
multi-line report, as the list of printed lines. -/
def print_wallet_text (codec : KeyCodec SK PK CPK) (wallet : Wallet SK PK) :
    List String :=
  [ "Wallet Generated Successfully!"
  , "=============================="
  , "Address:          " ++ Wallet.address codec wallet
  , "Secret Key (Hex): " ++ Wallet.secret_key_hex codec wallet
  , "Secret Key (B58): " ++ Wallet.secret_key_base58 codec wallet
  , "Network:          " ++ wallet.network.debugStr
  , ""
  , "WARNING: Store your secret key securely! Anyone with access to it can control your funds."
  ]

/-- `print_wallet_json` in `src/cli/src/main.rs`: the JSON object with the
wallet fields; the network field is `format!("{:?}", ...)` lower-cased. -/
def print_wallet_json (codec : KeyCodec SK PK CPK) (wallet : Wallet SK PK) :
    WalletJson :=
  { address := Wallet.address codec wallet
  , secret_key_hex := Wallet.secret_key_hex codec wallet
  , secret_key_base58 := Wallet.secret_key_base58 codec wallet
  , network := strToLower wallet.network.debugStr }

/-- The `Commands::Generate` arm of `main`: parse the network, create a
random wallet (entropy outcome passed explicitly), and print it in the
selected format; `"json"` selects the JSON object, anything else the text
report. -/
def runGenerate (codec : KeyCodec SK PK CPK)
    (entropy : Except String (Keypair SK PK)) (network format : String) :
    CliResult :=
  match parse_network network with
  | .error e => { exitCode := 1, output := none, errMsg := some ("Error: " ++ e) }
  | .ok network_id =>
    match Wallet.new entropy network_id with
    | .error e =>
      { exitCode := 1, output := none
      , errMsg := some ("Error generating wallet: " ++ e.message) }
    | .ok wallet =>
      if format = "json" then
        { exitCode := 0, output := some (.json (print_wallet_json codec wallet))
        , errMsg := none }
      else
        { exitCode := 0, output := some (.text (print_wallet_text codec wallet))
        , errMsg := none }

/-- The `Commands::Import` arm of `main`: parse the network, run
`import_wallet`, and print the wallet in the selected format; on failure
print the error with the `Error: ` stream prefix and exit 1. -/
def runImport (codec : KeyCodec SK PK CPK)
    (secret_key network format : String) : CliResult :=
  match parse_network network with
  | .error e => { exitCode := 1, output := none, errMsg := some ("Error: " ++ e) }
  | .ok network_id =>
    match import_wallet codec secret_key network_id with
    | .ok wallet =>
      if format = "json" then
        { exitCode := 0, output := some (.json (print_wallet_json codec wallet))
        , errMsg := none }
      else
        { exitCode := 0, output := some (.text (print_wallet_text codec wallet))
        , errMsg := none }
    | .error e => { exitCode := 1, output := none, errMsg := some ("Error: " ++ e) }

/-- The `Commands::Validate` arm of `main`: report validity according to
`address_to_pubkey`, exiting 1 with an `Invalid address: ` message when
parsing fails. -/
def runValidate (codec : KeyCodec SK PK CPK) (address : String) : CliResult :=
  match address_to_pubkey codec address with
  | .ok _ =>
    { exitCode := 0, output := some (.line ("Address is valid: " ++ address))
    , errMsg := none }
  | .error e =>
    { exitCode := 1, output := none, errMsg := some ("Invalid address: " ++ e) }

/-- The `Commands::Address` arm of `main`: import on mainnet via
`import_wallet` and print only the derived address. -/
def runAddress (codec : KeyCodec SK PK CPK) (secret_key : String) : CliResult :=
  match import_wallet codec secret_key NetworkId.MAINNET with
  | .ok wallet =>
    { exitCode := 0, output := some (.line (Wallet.address codec wallet))
    , errMsg := none }
  | .error e => { exitCode := 1, output := none, errMsg := some ("Error: " ++ e) }

end CliOps

/-- The uniform envelope returned by every wasm boundary function
(`WasmResult` in `src/wasm-module/src/lib.rs`). -/
structure WasmResult (T : Type) where
  success : Bool
  data : Option T
  error : Option String
deriving DecidableEq

/-- `WasmResult::ok`: a successful envelope carrying data. -/
def WasmResult.okR {T : Type} (data : T) : WasmResult T :=
  { success := true, data := some data, error := none }

/-- `WasmResult::err`: a failed envelope carrying an error string. -/
def WasmResult.errR {T : Type} (error : String) : WasmResult T :=
  { success := false, data := none, error := some error }

/-- The payload of the wasm `validate_address` function (`ValidationResult`
in `src/wasm-module/src/lib.rs`). -/
structure ValidationResult where
  valid : Bool
  error : Option String
deriving DecidableEq

section WasmOps

variable {SK PK CPK : Type}

/-- The wasm `validate_address` function: both the valid and the invalid
case are wrapped with `WasmResult::ok`; invalidity is reported inside the
payload. -/
def validate_address (codec : KeyCodec SK PK CPK) (address : String) :
    WasmResult ValidationResult :=
  match address_to_pubkey codec address with
  | .ok _ => WasmResult.okR { valid := true, error := none }
  | .error e => WasmResult.okR { valid := false, error := some e }

end WasmOps

/-- A small concrete Key Codec instance used to evaluate the theorems on
concrete inputs. Key types are `Unit`; the textual encodings have the
documented shapes (64-character hex, 52-character Base58, 55-character
address). -/
def toyCodec : KeyCodec Unit Unit Unit :=
  { from_hex := fun s =>
      if s = String.mk (List.replicate 64 'a') then .ok () else .error "bad hex"
  , to_hex := fun _ => String.mk (List.replicate 64 'a')
  , from_base58 := fun s =>
      if s = String.mk (List.replicate 52 'z') then .ok () else .error "bad base58"
  , to_base58 := fun _ => String.mk (List.replicate 52 'z')
  , derive_public := fun _ => .ok ()
  , compress := fun _ => ()
  , into_address := fun _ => String.mk (List.replicate 55 'B')
  , from_address := fun s =>
      if s = String.mk (List.replicate 55 'B') then .ok () else .error "bad address" }

/-- A concrete wallet over `toyCodec`. -/
def toyWallet : Wallet Unit Unit :=
  { keypair := { secret := (), public := () }, network := NetworkId.MAINNET }

/-! Theorems. -/

/-- The concrete codec instance satisfies the documented Key Codec
contracts. -/
theorem toyLawful : toyCodec.Lawful := by
  refine ⟨?_, ?_, ?_, ?_, ?_, ?_⟩
  · intro sk; cases sk; rfl
  · intro sk; cases sk; rfl
  · intro s cpk h
    by_cases hs : s = String.mk (List.replicate 55 'B')
    · cases cpk; rw [hs]; rfl
    · simp only [toyCodec] at h; rw [if_neg hs] at h; cases h
  · intro cpk; cases cpk; rfl
  · intro s h
    by_cases hs : s = String.mk (List.replicate 64 'a')
    · subst hs; rfl
    · simp only [toyCodec, exceptOk] at h; rw [if_neg hs] at h; simp at h
  · intro s h
    by_cases hs : s = String.mk (List.replicate 52 'z')
    · subst hs; rfl
    · simp only [toyCodec, exceptOk] at h; rw [if_neg hs] at h; simp at h

/-- Claim C1: for every Wallet `W` (well-formed, i.e. its public key is
derived from its secret key) and network tag `net`, re-importing an
exported secret key via the matching constructor reproduces an
address-identical Wallet, for both the hex and the Base58 encoding; the
Key Codec is assumed to satisfy its documented round-trip contracts. -/
theorem secret_key_roundtrip {SK PK CPK : Type} (codec : KeyCodec SK PK CPK)
    (L : codec.Lawful) (w : Wallet SK PK) (hw : w.WellFormed codec)
    (net : NetworkId) :
    (∃ w1, Wallet.from_secret_key_hex codec (Wallet.secret_key_hex codec w) net
        = .ok w1 ∧ Wallet.address codec w1 = Wallet.address codec w) ∧
    (∃ w2, Wallet.from_secret_key_base58 codec (Wallet.secret_key_base58 codec w) net
        = .ok w2 ∧ Wallet.address codec w2 = Wallet.address codec w) := by
  have hd : codec.derive_public w.keypair.secret = .ok w.keypair.public := hw
  constructor
  · refine ⟨⟨⟨w.keypair.secret, w.keypair.public⟩, net⟩, ?_, rfl⟩
    simp only [Wallet.from_secret_key_hex, Wallet.secret_key_hex, L.hex_roundtrip, hd]
  · refine ⟨⟨⟨w.keypair.secret, w.keypair.public⟩, net⟩, ?_, rfl⟩
    simp only [Wallet.from_secret_key_base58, Wallet.secret_key_base58,
      L.base58_roundtrip, hd]

/-- Witness for claim C1 at the concrete codec, wallet and network. -/
theorem secret_key_roundtrip_witness :
    (∃ w1, Wallet.from_secret_key_hex toyCodec
        (Wallet.secret_key_hex toyCodec toyWallet) NetworkId.TESTNET
        = .ok w1 ∧ Wallet.address toyCodec w1 = Wallet.address toyCodec toyWallet) ∧
    (∃ w2, Wallet.from_secret_key_base58 toyCodec
        (Wallet.secret_key_base58 toyCodec toyWallet) NetworkId.TESTNET
        = .ok w2 ∧ Wallet.address toyCodec w2 = Wallet.address toyCodec toyWallet) :=
  secret_key_roundtrip toyCodec toyLawful toyWallet rfl NetworkId.TESTNET

/-- Claim C2: address encoding and parsing are two-sided inverses: every
string that `address_to_pubkey` parses successfully is reproduced exactly
by re-encoding the parsed compressed public key, and parsing a Wallet's
own address yields that Wallet's public key in compressed form; the Key
Codec is assumed to satisfy its documented address-inverse contracts. -/
theorem address_pubkey_inverse {SK PK CPK : Type} (codec : KeyCodec SK PK CPK)
    (L : codec.Lawful) :
    (∀ (s : String) (cpk : CPK), address_to_pubkey codec s = .ok cpk →
      codec.into_address cpk = s) ∧
    (∀ w : Wallet SK PK, address_to_pubkey codec (Wallet.address codec w)
      = .ok (codec.compress w.keypair.public)) := by
  constructor
  · intro s cpk h
    exact L.address_parse_encode s cpk h
  · intro w
    exact L.address_encode_parse (codec.compress w.keypair.public)

/-- Witness for claim C2: parsing the concrete wallet's address yields its
compressed public key. -/
theorem address_pubkey_inverse_witness :
    address_to_pubkey toyCodec (Wallet.address toyCodec toyWallet)
      = .ok (toyCodec.compress toyWallet.keypair.public) :=
  (address_pubkey_inverse toyCodec toyLawful).2 toyWallet

/-- Claim C3: the CLI `validate` command reports success (exit code 0)
exactly when `address_to_pubkey` succeeds, and the wasm `validate_address`
payload reports `valid` exactly when `address_to_pubkey` succeeds; both are
pure functions of the input string. -/
theorem validate_exactness {SK PK CPK : Type} (codec : KeyCodec SK PK CPK)
    (s : String) :
    ((runValidate codec s).exitCode = 0 ↔
      exceptOk (address_to_pubkey codec s) = true) ∧
    (∃ vr, (validate_address codec s).data = some vr ∧
      (vr.valid = true ↔ exceptOk (address_to_pubkey codec s) = true)) := by
  cases h : address_to_pubkey codec s with
  | ok cpk =>
    refine ⟨by simp [runValidate, h, exceptOk], ⟨true, none⟩, ?_, ?_⟩
    · simp [validate_address, h, WasmResult.okR]
    · simp [h, exceptOk]
  | error e =>
    refine ⟨by simp [runValidate, h, exceptOk], ⟨false, some e⟩, ?_, ?_⟩
    · simp [validate_address, h, WasmResult.okR]
    · simp [h, exceptOk]

/-- Claim C4: a string accepted by the hex decoder is rejected by the
Base58 constructor with `InvalidSecretKey` and vice versa, and no string is
accepted by both constructors; the Key Codec is assumed to satisfy its
documented format-disjointness contract. -/
theorem format_rejection_independence {SK PK CPK : Type}
    (codec : KeyCodec SK PK CPK) (L : codec.Lawful) (s : String)
    (net : NetworkId) :
    (exceptOk (codec.from_hex s) = true →
      ∃ d, Wallet.from_secret_key_base58 codec s net
        = .error (.InvalidSecretKey d)) ∧
    (exceptOk (codec.from_base58 s) = true →
      ∃ d, Wallet.from_secret_key_hex codec s net
        = .error (.InvalidSecretKey d)) ∧
    ¬(exceptOk (Wallet.from_secret_key_hex codec s net) = true ∧
      exceptOk (Wallet.from_secret_key_base58 codec s net) = true) := by
  refine ⟨?_, ?_, ?_⟩
  · intro h
    have hb := L.format_disjoint_hex s h
    cases hbe : codec.from_base58 s with
    | ok sk => rw [hbe] at hb; simp [exceptOk] at hb
    | error d => exact ⟨d, by simp only [Wallet.from_secret_key_base58, hbe]⟩
  · intro h
    have hb := L.format_disjoint_base58 s h
    cases hfe : codec.from_hex s with
    | ok sk => rw [hfe] at hb; simp [exceptOk] at hb
    | error d => exact ⟨d, by simp only [Wallet.from_secret_key_hex, hfe]⟩
  · rintro ⟨h1, h2⟩
    cases hfe : codec.from_hex s with
    | error d => simp [Wallet.from_secret_key_hex, hfe, exceptOk] at h1
    | ok sk =>
      cases hbe : codec.from_base58 s with
      | error d => simp [Wallet.from_secret_key_base58, hbe, exceptOk] at h2
      | ok sk2 =>
        have hb := L.format_disjoint_hex s (by rw [hfe]; rfl)
        rw [hbe] at hb
        simp [exceptOk] at hb

/-- Witness for claim C4: the concrete 64-character hex string is accepted
by the hex decoder and rejected by the Base58 constructor. -/
theorem format_rejection_independence_witness :
    ∃ d, Wallet.from_secret_key_base58 toyCodec
      (String.mk (List.replicate 64 'a')) NetworkId.MAINNET
      = .error (.InvalidSecretKey d) :=
  (format_rejection_independence toyCodec toyLawful
    (String.mk (List.replicate 64 'a')) NetworkId.MAINNET).1 rfl

/-- A list with no occurrence of `q` that is a prefix of `x ++ q :: y` is
a prefix of `x`. -/
theorem notMem_prefix_append {α : Type} {q : α} {y : List α}
    (s x : List α) (hq : q ∉ s) (h : s <+: x ++ q :: y) : s <+: x := by
  induction s generalizing x with
  | nil => exact List.nil_prefix
  | cons a s ih =>
    cases x with
    | nil =>
      obtain ⟨t, ht⟩ := h
      rw [List.nil_append] at ht
      rw [List.cons_append] at ht
      injection ht with h1 _
      exact absurd (h1 ▸ List.mem_cons_self a s) hq
    | cons b x =>
      obtain ⟨t, ht⟩ := h
      rw [List.cons_append, List.cons_append] at ht
      injection ht with h1 h2
      subst h1
      have hs : s <+: x :=
        ih x (fun hm => hq (List.mem_cons_of_mem _ hm)) ⟨t, h2⟩
      obtain ⟨u, hu⟩ := hs
      exact ⟨u, by rw [List.cons_append, hu]⟩

/-- A list with no occurrence of the separator `q` that sits inside
`x ++ q :: y` sits entirely inside `x` or entirely inside `y`. -/
theorem notMem_infix_split {α : Type} {q : α} {y : List α}
    (s x : List α) (hq : q ∉ s) (h : s <:+: x ++ q :: y) :
    s <:+: x ∨ s <:+: y := by
  induction x with
  | nil =>
    rw [List.nil_append] at h
    rcases List.infix_cons_iff.mp h with hp | hi
    · cases s with
      | nil => exact Or.inl List.nil_infix
      | cons a s =>
        obtain ⟨t, ht⟩ := hp
        rw [List.cons_append] at ht
        injection ht with h1 _
        exact absurd (h1 ▸ List.mem_cons_self a s) hq
    · exact Or.inr hi
  | cons b x ih =>
    rw [List.cons_append] at h
    rcases List.infix_cons_iff.mp h with hp | hi
    · exact Or.inl (notMem_prefix_append s (b :: x) hq
        (by rw [List.cons_append]; exact hp)).isInfix
    · rcases ih hi with h1 | h2
      · exact Or.inl (List.infix_cons h1)
      · exact Or.inr h2

/-- A quote-free string longer than every fixed fragment of the `Debug`
rendering, and not contained in the address, is not contained in the
`Debug` rendering of a Wallet. -/
theorem no_secret_in_debug {SK PK CPK : Type} (codec : KeyCodec SK PK CPK)
    (w : Wallet SK PK) (sec : String) (hlen : 20 < sec.data.length)
    (hq : '"' ∉ sec.data)
    (haddr : ¬ sec.data <:+: (Wallet.address codec w).data) :
    ¬ sec.data <:+: (Wallet.debugRender codec w).data := by
  intro h
  have e1 : ("Wallet \x7b address: \"" : String).data
      = "Wallet \x7b address: ".data ++ ['"'] := rfl
  have e2 : ("\", network: " : String).data
      = '"' :: (", network: " : String).data := rfl
  have hd : (Wallet.debugRender codec w).data
      = "Wallet \x7b address: ".data ++ '"' ::
        ((Wallet.address codec w).data ++ '"' ::
          ((", network: " : String).data
            ++ (w.network.debugStr.data ++ (" \x7d" : String).data))) := by
    simp only [Wallet.debugRender, String.data_append, e1, e2]
    simp [List.append_assoc]
  rw [hd] at h
  rcases notMem_infix_split _ _ hq h with hA | hB
  · have hle := hA.length_le
    have hpre : ("Wallet \x7b address: " : String).data.length = 18 := rfl
    rw [hpre] at hle
    omega
  · rcases notMem_infix_split _ _ hq hB with hC | hD
    · exact haddr hC
    · have hle := hD.length_le
      have hpost : ((", network: " : String).data
          ++ (w.network.debugStr.data ++ (" \x7d" : String).data)).length = 20 := by
        cases hw : w.network <;> rfl
      rw [hpost] at hle
      omega

/-- Claim C6: the `Debug` and `Display` renderings of a Wallet are
functions of its address and network alone, and neither rendering contains
the secret key in either encoding, given the documented encoding lengths
(64-character hex, 52-character Base58), that neither encoding contains a
quote character, and that neither encoding occurs inside the address
string itself. -/
theorem wallet_render_no_secret {SK PK CPK : Type} (codec : KeyCodec SK PK CPK)
    (w : Wallet SK PK)
    (hhex_len : (Wallet.secret_key_hex codec w).data.length = 64)
    (hb58_len : (Wallet.secret_key_base58 codec w).data.length = 52)
    (hhex_q : '"' ∉ (Wallet.secret_key_hex codec w).data)
    (hb58_q : '"' ∉ (Wallet.secret_key_base58 codec w).data)
    (hhex_addr : ¬ (Wallet.secret_key_hex codec w).data
      <:+: (Wallet.address codec w).data)
    (hb58_addr : ¬ (Wallet.secret_key_base58 codec w).data
      <:+: (Wallet.address codec w).data) :
    (∀ w2 : Wallet SK PK, Wallet.address codec w2 = Wallet.address codec w →
      w2.network = w.network →
      Wallet.debugRender codec w2 = Wallet.debugRender codec w ∧
      Wallet.displayRender codec w2 = Wallet.displayRender codec w) ∧
    (¬ (Wallet.secret_key_hex codec w).data
      <:+: (Wallet.debugRender codec w).data) ∧
    (¬ (Wallet.secret_key_base58 codec w).data
      <:+: (Wallet.debugRender codec w).data) ∧
    (¬ (Wallet.secret_key_hex codec w).data
      <:+: (Wallet.displayRender codec w).data) ∧
    (¬ (Wallet.secret_key_base58 codec w).data
      <:+: (Wallet.displayRender codec w).data) := by
  refine ⟨?_, ?_, ?_, ?_, ?_⟩
  · intro w2 ha hn
    constructor
    · unfold Wallet.debugRender
      rw [ha, hn]
    · unfold Wallet.displayRender
      rw [ha]
  · exact no_secret_in_debug codec w _ (by omega) hhex_q hhex_addr
  · exact no_secret_in_debug codec w _ (by omega) hb58_q hb58_addr
  · exact hhex_addr
  · exact hb58_addr

/-- Witness for claim C6 at the concrete codec and wallet. -/
theorem wallet_render_no_secret_witness :
    (∀ w2 : Wallet Unit Unit,
      Wallet.address toyCodec w2 = Wallet.address toyCodec toyWallet →
      w2.network = toyWallet.network →
      Wallet.debugRender toyCodec w2 = Wallet.debugRender toyCodec toyWallet ∧
      Wallet.displayRender toyCodec w2 = Wallet.displayRender toyCodec toyWallet) ∧
    (¬ (Wallet.secret_key_hex toyCodec toyWallet).data
      <:+: (Wallet.debugRender toyCodec toyWallet).data) ∧
    (¬ (Wallet.secret_key_base58 toyCodec toyWallet).data
      <:+: (Wallet.debugRender toyCodec toyWallet).data) ∧
    (¬ (Wallet.secret_key_hex toyCodec toyWallet).data
      <:+: (Wallet.displayRender toyCodec toyWallet).data) ∧
    (¬ (Wallet.secret_key_base58 toyCodec toyWallet).data
      <:+: (Wallet.displayRender toyCodec toyWallet).data) :=
  wallet_render_no_secret toyCodec toyWallet rfl rfl (by decide) (by decide)
    (by decide) (by decide)

/-- Claim C5: given a recognised network option, the CLI import flow tries
the hex constructor first, then the Base58 constructor, the first success
determining the Wallet; the command exits 0 whenever the import succeeds,
and it exits 1 with the combined invalid-format message exactly when both
constructors fail. -/
theorem cli_import_flow {SK PK CPK : Type} (codec : KeyCodec SK PK CPK)
    (s netStr fmt : String) (net : NetworkId)
    (hnet : parse_network netStr = .ok net) :
    (∀ w, Wallet.from_secret_key_hex codec s net = .ok w →
      import_wallet codec s net = .ok w) ∧
    (∀ w, exceptOk (Wallet.from_secret_key_hex codec s net) = false →
      Wallet.from_secret_key_base58 codec s net = .ok w →
      import_wallet codec s net = .ok w) ∧
    (∀ w, import_wallet codec s net = .ok w →
      (runImport codec s netStr fmt).exitCode = 0) ∧
    (((runImport codec s netStr fmt).exitCode = 1 ∧
        (runImport codec s netStr fmt).errMsg = some ("Error: " ++
          "Invalid secret key format. Expected hex (64 chars) or base58 (52 chars).")) ↔
      (exceptOk (Wallet.from_secret_key_hex codec s net) = false ∧
        exceptOk (Wallet.from_secret_key_base58 codec s net) = false)) := by
  refine ⟨?_, ?_, ?_, ?_⟩
  · intro w h
    simp [import_wallet, h]
  · intro w h1 h2
    cases hfe : Wallet.from_secret_key_hex codec s net with
    | ok w0 => rw [hfe] at h1; simp [exceptOk] at h1
    | error e => simp [import_wallet, hfe, h2]
  · intro w h
    simp only [runImport, hnet, h]
    by_cases hf : fmt = "json" <;> simp [hf]
  · constructor
    · rintro ⟨h1, h2⟩
      cases hfe : Wallet.from_secret_key_hex codec s net with
      | ok w0 =>
        exfalso
        have h0 : (runImport codec s netStr fmt).exitCode = 0 := by
          have himp0 : import_wallet codec s net = .ok w0 := by
            simp [import_wallet, hfe]
          simp only [runImport, hnet, himp0]
          by_cases hf : fmt = "json" <;> simp [hf]
        rw [h0] at h1
        cases h1
      | error e1 =>
        cases hbe : Wallet.from_secret_key_base58 codec s net with
        | ok w0 =>
          exfalso
          have h0 : (runImport codec s netStr fmt).exitCode = 0 := by
            have himp : import_wallet codec s net = .ok w0 := by
              simp [import_wallet, hfe, hbe]
            simp only [runImport, hnet, himp]
            by_cases hf : fmt = "json" <;> simp [hf]
          rw [h0] at h1
          cases h1
        | error e2 =>
          simp [hfe, hbe, exceptOk]
    · rintro ⟨h1, h2⟩
      obtain ⟨e1, hfe⟩ : ∃ e, Wallet.from_secret_key_hex codec s net = .error e := by
        cases hx : Wallet.from_secret_key_hex codec s net with
        | ok w => rw [hx] at h1; simp [exceptOk] at h1
        | error e => exact ⟨e, rfl⟩
      obtain ⟨e2, hbe⟩ : ∃ e, Wallet.from_secret_key_base58 codec s net = .error e := by
        cases hx : Wallet.from_secret_key_base58 codec s net with
        | ok w => rw [hx] at h2; simp [exceptOk] at h2
        | error e => exact ⟨e, rfl⟩
      simp [runImport, hnet, import_wallet, hfe, hbe]

/-- Witness for claim C5 at a concrete input that both constructors
reject. -/
theorem cli_import_flow_witness :
    (∀ w, Wallet.from_secret_key_hex toyCodec "zz" NetworkId.MAINNET = .ok w →
      import_wallet toyCodec "zz" NetworkId.MAINNET = .ok w) ∧
    (∀ w, exceptOk (Wallet.from_secret_key_hex toyCodec "zz" NetworkId.MAINNET) = false →
      Wallet.from_secret_key_base58 toyCodec "zz" NetworkId.MAINNET = .ok w →
      import_wallet toyCodec "zz" NetworkId.MAINNET = .ok w) ∧
    (∀ w, import_wallet toyCodec "zz" NetworkId.MAINNET = .ok w →
      (runImport toyCodec "zz" "mainnet" "text").exitCode = 0) ∧
    (((runImport toyCodec "zz" "mainnet" "text").exitCode = 1 ∧
        (runImport toyCodec "zz" "mainnet" "text").errMsg = some ("Error: " ++
          "Invalid secret key format. Expected hex (64 chars) or base58 (52 chars).")) ↔
      (exceptOk (Wallet.from_secret_key_hex toyCodec "zz" NetworkId.MAINNET) = false ∧
        exceptOk (Wallet.from_secret_key_base58 toyCodec "zz" NetworkId.MAINNET) = false)) :=
  cli_import_flow toyCodec "zz" "mainnet" "text" NetworkId.MAINNET rfl

/-- Claim C7: whatever the casing of a network option denoting testnet,
generating a wallet with format `json` produces exit code 0 and a JSON
object whose network field is exactly the lower-case string `testnet`. -/
theorem generate_json_testnet {SK PK CPK : Type} (codec : KeyCodec SK PK CPK)
    (kp : Keypair SK PK) (netOpt : String)
    (hs : strToLower netOpt = "testnet") :
    ∃ j, runGenerate codec (.ok kp) netOpt "json"
        = { exitCode := 0, output := some (.json j), errMsg := none } ∧
      j.network = "testnet" := by
  have h1 : parse_network netOpt = .ok NetworkId.TESTNET := by
    unfold parse_network
    rw [hs]
    rfl
  refine ⟨print_wallet_json codec ⟨kp, .TESTNET⟩, ?_, ?_⟩
  · simp only [runGenerate, h1, Wallet.new]
    rfl
  · rfl

/-- Witness for claim C7 with the mixed-case option value. -/
theorem generate_json_testnet_witness :
    ∃ j, runGenerate toyCodec (.ok { secret := (), public := () }) "TestNet" "json"
        = { exitCode := 0, output := some (.json j), errMsg := none } ∧
      j.network = "testnet" :=
  generate_json_testnet toyCodec { secret := (), public := () } "TestNet" rfl

/-- Claim C8: for every output-format selector other than `json`, the
generate and import commands do not error: they fall back to the text
rendering and exit 0 whenever the underlying wallet operation succeeds. -/
theorem unrecognized_format_falls_back {SK PK CPK : Type}
    (codec : KeyCodec SK PK CPK) (kp : Keypair SK PK)
    (s netStr fmt : String) (net : NetworkId)
    (hnet : parse_network netStr = .ok net) (hfmt : fmt ≠ "json") :
    runGenerate codec (.ok kp) netStr fmt
      = { exitCode := 0
        , output := some (.text (print_wallet_text codec ⟨kp, net⟩))
        , errMsg := none } ∧
    (∀ w, import_wallet codec s net = .ok w →
      runImport codec s netStr fmt
        = { exitCode := 0
          , output := some (.text (print_wallet_text codec w))
          , errMsg := none }) := by
  constructor
  · simp only [runGenerate, hnet, Wallet.new]
    rw [if_neg hfmt]
  · intro w h
    simp only [runImport, hnet, h]
    rw [if_neg hfmt]

/-- Witness for claim C8 with the unrecognized selector `yaml`. -/
theorem unrecognized_format_falls_back_witness :
    runGenerate toyCodec (.ok { secret := (), public := () }) "mainnet" "yaml"
      = { exitCode := 0
        , output := some (.text (print_wallet_text toyCodec
            ⟨{ secret := (), public := () }, NetworkId.MAINNET⟩))
        , errMsg := none } ∧
    (∀ w, import_wallet toyCodec "zz" NetworkId.MAINNET = .ok w →
      runImport toyCodec "zz" "mainnet" "yaml"
        = { exitCode := 0
          , output := some (.text (print_wallet_text toyCodec w))
          , errMsg := none }) :=
  unrecognized_format_falls_back toyCodec { secret := (), public := () }
    "zz" "mainnet" "yaml" NetworkId.MAINNET rfl (by decide)

/-- Claim C9: the wasm `validate_address` function always returns an
envelope with `success = true` and no envelope error; invalidity is
reported only inside the payload, whose `valid` flag tracks
`address_to_pubkey` and whose detail string is present exactly when the
address is invalid. -/
theorem wasm_validate_envelope {SK PK CPK : Type} (codec : KeyCodec SK PK CPK)
    (s : String) :
    (validate_address codec s).success = true ∧
    (validate_address codec s).error = none ∧
    ∃ vr, (validate_address codec s).data = some vr ∧
      (vr.valid = true ↔ exceptOk (address_to_pubkey codec s) = true) ∧
      (vr.valid = false → ∃ d, vr.error = some d) := by
  cases h : address_to_pubkey codec s with
  | ok cpk =>
    refine ⟨?_, ?_, ⟨true, none⟩, ?_, ?_, ?_⟩ <;>
      simp [validate_address, h, WasmResult.okR, exceptOk]
  | error e =>
    refine ⟨?_, ?_, ⟨false, some e⟩, ?_, ?_, ?_⟩ <;>
      simp [validate_address, h, WasmResult.okR, exceptOk]

/-- Claim C10: whenever the CLI `import_wallet` fails, its error is the one
fixed combined message, regardless of the input: the distinct codec failure
details are discarded. -/
theorem import_error_message_fixed {SK PK CPK : Type}
    (codec : KeyCodec SK PK CPK) (s : String) (net : NetworkId) (e : String)
    (h : import_wallet codec s net = .error e) :
    e = "Invalid secret key format. Expected hex (64 chars) or base58 (52 chars)." := by
  unfold import_wallet at h
  cases hfe : Wallet.from_secret_key_hex codec s net with
  | ok w =>
    rw [hfe] at h
    simp at h
  | error e1 =>
    rw [hfe] at h
    cases hbe : Wallet.from_secret_key_base58 codec s net with
    | ok w =>
      rw [hbe] at h
      simp at h
    | error e2 =>
      rw [hbe] at h
      simp only [] at h
      injection h with h2
      exact h2.symm

/-- Witness for claim C10 at a concrete rejected input. -/
theorem import_error_message_fixed_witness :
    ∃ e, import_wallet toyCodec "zz" NetworkId.MAINNET = .error e ∧
      e = "Invalid secret key format. Expected hex (64 chars) or base58 (52 chars)." :=
  ⟨"Invalid secret key format. Expected hex (64 chars) or base58 (52 chars).", rfl,
    import_error_message_fixed toyCodec "zz" NetworkId.MAINNET _ rfl⟩

end MinaWallet
